import Mathlib

/-!
# Verification of the SSSP client library (`sssp.go`)

A shallow embedding of the Go SSSP protocol client in Lean 4, together with
theorems settling the specification claims about its response parsing,
configuration, dialing and validation behaviour.

The embedding models:
* Go string helpers used by the client (`strings.HasPrefix`, `strings.Split`
  with a single-space separator, `strings.TrimLeft`) as functions on the
  character data of strings;
* the compiled regular expression
  `^VIRUS\s(?P<signature>\S+)\s(?P<filename>\S+)?$` as `virusMatch`;
* the single-target response parser `processResponse` and the multi-target
  response parser `processResponses` as recursive functions over the list of
  lines delivered by `textproto.ReadLine`.  Exhausting the list models the
  point at which a further read fails: the parameter `e` is the message of
  that lower-level read error;
* the configuration setters, the dial retry loop, the `NewClient` validation
  logic and the `ScanStream` stat handling.
-/

namespace SSSP

/-- Go `strings.HasPrefix` on character lists: `startsWithL pre l` is true
when `pre` is a prefix of `l`. -/
def startsWithL : List Char → List Char → Bool
  | [], _ => true
  | _ :: _, [] => false
  | c :: cs, d :: ds => if c = d then startsWithL cs ds else false

/-- Go `strings.HasPrefix line tok`. -/
def goStartsWith (s tok : String) : Bool :=
  startsWithL tok.data s.data

/-- Go `strings.Split(s, " ")` on character data: split around every single
space character, keeping empty fields. -/
def splitChSpace : List Char → List (List Char)
  | [] => [[]]
  | c :: rest =>
    if c = ' ' then [] :: splitChSpace rest
    else
      match splitChSpace rest with
      | [] => [[c]]
      | t :: ts => (c :: t) :: ts

/-- Go `strings.Split(line, " ")`. -/
def goSplitSpace (s : String) : List String :=
  (splitChSpace s.data).map String.mk

/-- Go `strings.TrimLeft(s, cutset)`: remove the maximal leading run of
characters that are contained in `cutset` (a character set, not a prefix). -/
def goTrimLeft (s cutset : String) : String :=
  String.mk (s.data.dropWhile (fun c => cutset.data.contains c))

/-- The Go regexp character class `\s` (RE2 Perl class): tab, newline, form
feed, carriage return, space. -/
def isGoSpace (c : Char) : Bool :=
  if c = '\t' then true
  else if c = '\n' then true
  else if c = '\x0c' then true
  else if c = '\r' then true
  else if c = ' ' then true
  else false

/-- Helper for `virusMatch`: given the characters following `VIRUS\s`, find
the (unique) decomposition `signature ++ whitespace ++ member` required by
`\S+\s(\S+)?$`: the signature is the run of non-space characters up to the
next whitespace character, and the remainder must contain no whitespace.
`acc` accumulates the signature characters read so far, in reverse. -/
def virusSplit (acc : List Char) : List Char → Option (List Char × List Char)
  | [] => none
  | c :: rest =>
    if isGoSpace c then
      if acc.isEmpty then none
      else if rest.any isGoSpace then none
      else some (acc.reverse, rest)
    else virusSplit (c :: acc) rest

/-- The compiled regexp `^VIRUS\s(?P<signature>\S+)\s(?P<filename>\S+)?$`
applied via `FindStringSubmatch`: on a match, returns the submatches
`(m[1], m[2])`, with `m[2] = ""` when the optional filename group is absent. -/
def virusMatch (line : String) : Option (String × String) :=
  match line.data with
  | 'V' :: 'I' :: 'R' :: 'U' :: 'S' :: c :: rest =>
    if isGoSpace c then
      match virusSplit [] rest with
      | some (sig, mem) => some (String.mk sig, String.mk mem)
      | none => none
    else none
  | _ => none

/-- The `Response` struct returned to callers. -/
structure Response where
  Filename : String := ""
  ArchiveItem : String := ""
  Signature : String := ""
  Status : String := ""
  Infected : Bool := false
  ErrorOccured : Bool := false
  Raw : String := ""
deriving Repr, DecidableEq

/-- The error returned from a response-parsing exchange: either the
lower-level read error propagated verbatim (`readErr`), or a pending
protocol-content error built with `fmt.Errorf` (`pending`). -/
inductive ScanErr where
  | readErr (e : String)
  | pending (msg : String)
deriving Repr, DecidableEq

/-- Whether an exchange outcome is a propagated lower-level read error. -/
def isReadErr : Option ScanErr → Bool
  | some (ScanErr.readErr _) => true
  | _ => false

/-- Message of the pending error captured from a `DONE FAIL` line:
`strings.TrimLeft(strings.TrimLeft(line, "DONE FAIL"), " ")`. -/
def doneFailMsg (line : String) : String :=
  goTrimLeft (goTrimLeft line "DONE FAIL") " "

/-- Message of `fmt.Errorf(virusMatchErr, line)`. -/
def virusMatchMsg (line : String) : String :=
  "Virus match failure: " ++ line

/-- Message of `fmt.Errorf(invalidRespErr, line)`. -/
def invalidRespMsg (line : String) : String :=
  "Invalid server response: " ++ line

/-- The loop body of `processResponse` (single-target mode), with the Go
loop state made explicit: `r` is the response under construction, `ierr` the
pending protocol-content error, and the list holds the lines still to be
read.  Exhausting the list models `tc.ReadLine` failing with error `e`; the
Go `return` on a read error returns the current `r` and that error, and the
final `if err == nil && ierr != nil { err = ierr }` is reflected in the two
terminal cases. -/
def processResponseGo (e : String) :
    Response → Option String → List String → Response × Option ScanErr
  | r, _, [] => (r, some (.readErr e))
  | r, ierr, line :: rest =>
    if goStartsWith line "ACC" then processResponseGo e r ierr rest
    else
      let ierr1 :=
        if goStartsWith line "DONE" then
          if goStartsWith line "DONE FAIL" then some (doneFailMsg line) else ierr
        else ierr
      if line = "" then (r, ierr1.map .pending)
      else if r.Signature ≠ "" then processResponseGo e r ierr1 rest
      else
        match virusMatch line with
        | some (sig, mem) =>
          let r1 := if r.Filename ≠ mem then { r with ArchiveItem := mem } else r
          processResponseGo e
            { r1 with Infected := true, Signature := sig, Raw := line } ierr1 rest
        | none =>
          if goStartsWith line "VIRUS" then
            processResponseGo e r (some (virusMatchMsg line)) rest
          else processResponseGo e r ierr1 rest

/-- `processResponse p`: parse a single-target exchange whose lines are
`lines`, for requested target `p`; `e` is the error a further read would
fail with once `lines` is exhausted. -/
def processResponse (p : String) (lines : List String) (e : String) :
    Response × Option ScanErr :=
  processResponseGo e { Filename := p } none lines

/-- The `OK` branch of the inner loop of `processResponses`: split the
success line on spaces; with exactly 3 fields the third is the authoritative
target name and an archive item equal to it is cleared, otherwise a pending
invalid-server-response error is recorded. -/
def okFinish (rs : Response) (ierr : Option String) (line : String) :
    Response × Option String :=
  if (goSplitSpace line).length ≠ 3 then (rs, some (invalidRespMsg line))
  else if rs.ArchiveItem = (goSplitSpace line).getD 2 "" then
    ({ rs with Filename := (goSplitSpace line).getD 2 "", ArchiveItem := "" }, ierr)
  else ({ rs with Filename := (goSplitSpace line).getD 2 "" }, ierr)

/-- Position of the multi-target parser in its control flow: `top` is the
outer loop, `nested rs` is the inner loop collecting the success line for
the infected response `rs`. -/
inductive MMode where
  | top
  | nested (rs : Response)
deriving Repr, DecidableEq

/-- The loop of `processResponses` (multi-target mode) as a state machine
consuming one line per step.  `acc` is the result slice built so far, `ierr`
the pending protocol-content error, and the mode records whether control is
in the outer loop or in the inner loop started by an infection-report line.
Exhausting the list models `tc.ReadLine` failing with error `e`. -/
def processResponsesGo (e : String) :
    List Response → Option String → MMode → List String → List Response × Option ScanErr
  | acc, _, _, [] => (acc, some (.readErr e))
  | acc, ierr, .nested rs, line :: rest =>
    if goStartsWith line "VIRUS" then processResponsesGo e acc ierr (.nested rs) rest
    else if goStartsWith line "OK" then
      let p1 := okFinish rs ierr line
      let ierr2 := if goStartsWith line "VIRUS" then some (virusMatchMsg line) else p1.2
      processResponsesGo e (acc ++ [p1.1]) ierr2 .top rest
    else processResponsesGo e acc ierr (.nested rs) rest
  | acc, ierr, .top, line :: rest =>
    if goStartsWith line "ACC" then processResponsesGo e acc ierr .top rest
    else
      let ierr1 :=
        if goStartsWith line "DONE" then
          if goStartsWith line "DONE FAIL" then some (doneFailMsg line) else ierr
        else ierr
      if line = "" then (acc, ierr1.map .pending)
      else if goStartsWith line "FAIL" then
        let pts := goSplitSpace line
        let p1 : Response × Option String :=
          if pts.length ≠ 3 then
            ({ ErrorOccured := true, Raw := line }, some (invalidRespMsg line))
          else
            ({ ErrorOccured := true, Raw := line, Filename := pts.getD 2 "" }, ierr1)
        processResponsesGo e (acc ++ [p1.1]) p1.2 .top rest
      else
        match virusMatch line with
        | some (sig, mem) =>
          processResponsesGo e acc ierr1
            (.nested { Infected := true, Signature := sig, Raw := line, ArchiveItem := mem })
            rest
        | none =>
          if goStartsWith line "VIRUS" then
            processResponsesGo e acc (some (virusMatchMsg line)) .top rest
          else processResponsesGo e acc ierr1 .top rest

/-- `processResponses`: parse a multi-target (`SCANDIR`/`SCANDIRR`) exchange
whose lines are `lines`; `e` is the error a further read would fail with
once `lines` is exhausted. -/
def processResponses (lines : List String) (e : String) :
    List Response × Option ScanErr :=
  processResponsesGo e [] none .top lines

/-- Specification-side event machine for a multi-target line stream, used
to state claim C1.  The first argument is `none` at top level and `some v`
while inside the `VIRUS..OK` sequence opened by infection-report line `v`.
It emits one event per top-level line beginning with the failure token
(`(true, line)`) and one per top-level infection-report line whose sequence
reaches a success line (`(false, line)`), in arrival order; acknowledgement
lines are skipped and the top-level empty line ends the stream. -/
def topEventsGo : Option String → List String → List (Bool × String)
  | _, [] => []
  | none, line :: rest =>
    if goStartsWith line "ACC" then topEventsGo none rest
    else if line = "" then []
    else if goStartsWith line "FAIL" then (true, line) :: topEventsGo none rest
    else if (virusMatch line).isSome then topEventsGo (some line) rest
    else topEventsGo none rest
  | some v, line :: rest =>
    if goStartsWith line "OK" then (false, v) :: topEventsGo none rest
    else topEventsGo (some v) rest

/-- The result-producing events of a multi-target line stream: one per
top-level `FAIL` line or completed `VIRUS..OK` sequence, in arrival order,
tagged `true` for a failure event and `false` for an infection event and
carrying the line that started the event. -/
def topEvents (lines : List String) : List (Bool × String) :=
  topEventsGo none lines

/-- Specification-side termination machine for a multi-target line stream,
used to state claim C5; the first argument records whether control is
inside a `VIRUS..OK` sequence (in which every line, including an empty
one, is consumed without terminating the exchange). -/
def multiTermGo : Bool → List String → Bool
  | _, [] => false
  | false, line :: rest =>
    if goStartsWith line "ACC" then multiTermGo false rest
    else if line = "" then true
    else if goStartsWith line "FAIL" then multiTermGo false rest
    else if (virusMatch line).isSome then multiTermGo true rest
    else multiTermGo false rest
  | true, line :: rest =>
    if goStartsWith line "OK" then multiTermGo false rest
    else multiTermGo true rest

/-- Whether a multi-target line stream reaches the empty-line sentinel
(`true`), rather than exhausting its lines so that the next read fails
(`false`). -/
def multiTerm (lines : List String) : Bool :=
  multiTermGo false lines

/-! ## Client configuration, dialing, validation and stream scanning -/

/-- `time.Duration` constants, in nanoseconds. -/
def defaultTimeout : Int := 15 * 1000000000

/-- Default connection retry sleep: one second. -/
def defaultSleep : Int := 1000000000

/-- Default per-command timeout: one minute. -/
def defaultCmdTimeout : Int := 60 * 1000000000

/-- Default Unix socket path. -/
def defaultSock : String := "/var/lib/savdid/sssp.sock"

/-- The error message of `fmt.Errorf(dirScanErr)`. -/
def dirScanMsg : String := "Scanning directories is not supported"

/-- The configuration-carrying fields of the `Client` struct (`time.Duration`
values modelled as `Int` nanoseconds; only their sign is ever inspected). -/
structure ClientCfg where
  network : String := ""
  address : String := ""
  connTimeout : Int := 0
  connRetries : Int := 0
  connSleep : Int := 0
  cmdTimeout : Int := 0
deriving Repr, DecidableEq

/-- `Client.SetCmdTimeout`: update the per-command timeout only when the
supplied duration is positive. -/
def SetCmdTimeout (c : ClientCfg) (t : Int) : ClientCfg :=
  if 0 < t then { c with cmdTimeout := t } else c

/-- `Client.SetConnSleep`: update the connection retry sleep only when the
supplied duration is positive. -/
def SetConnSleep (c : ClientCfg) (s : Int) : ClientCfg :=
  if 0 < s then { c with connSleep := s } else c

/-- Classified outcome of one `DialContext` attempt. -/
inductive DialOutcome where
  | success
  | timeoutErr
  | otherErr (e : String)
deriving Repr, DecidableEq

/-- The body of the retry loop of `Client.dial`: `i` is the current loop
index, the second argument the number of iterations still allowed, and
`att` gives the outcome of the attempt with each index.  A timeout outcome
continues the loop (after sleeping); any other outcome breaks it.  `none`
models the `(nil, nil)` pair returned when the loop runs zero times. -/
def dialFrom (att : Nat → DialOutcome) : Nat → Nat → Option DialOutcome
  | _, 0 => none
  | i, k + 1 =>
    match att i with
    | .timeoutErr => if k = 0 then some .timeoutErr else dialFrom att (i + 1) k
    | o => some o

/-- `Client.dial`: run the attempt loop `for i := 0; i <= connRetries; i++`,
i.e. at most `connRetries + 1` iterations (none when `connRetries < 0`). -/
def dial (connRetries : Int) (att : Nat → DialOutcome) : Option DialOutcome :=
  dialFrom att 0 (connRetries + 1).toNat

/-- Outcome of `NewClient`: one of the three error paths or a constructed
client configuration. -/
inductive NewClientResult where
  | errUnsupported (network : String)
  | errSockNotFound (address : String)
  | errDial (e : String)
  | ok (c : ClientCfg)
deriving Repr, DecidableEq

/-- `NewClient`: default the transport when both network and address are
empty, validate the transport kind, for Unix-domain kinds require that
`os.Stat` on the socket path does not report non-existence, apply timeout
defaults, and finally dial.  `statNotExist a` models
`os.IsNotExist(os.Stat(a).err)` and `dialErr` the outcome of `c.Dial(ctx)`. -/
def NewClient (network address : String) (statNotExist : String → Bool)
    (connTimeOut ioTimeOut connRetries : Int) (dialErr : Option String) :
    NewClientResult :=
  let nw := if network = "" ∧ address = "" then "unix" else network
  let ad := if network = "" ∧ address = "" then defaultSock else address
  if nw ≠ "unix" ∧ nw ≠ "unixpacket" ∧ nw ≠ "tcp" ∧ nw ≠ "tcp4" ∧ nw ≠ "tcp6" then
    .errUnsupported nw
  else if (nw = "unix" ∨ nw = "unixpacket") ∧ statNotExist ad then
    .errSockNotFound ad
  else
    let ct := if connTimeOut = 0 then defaultTimeout else connTimeOut
    let iot := if ioTimeOut = 0 then defaultCmdTimeout else ioTimeOut
    match dialErr with
    | some e => .errDial e
    | none =>
      .ok { network := nw, address := ad, connTimeout := ct,
            connSleep := defaultSleep, cmdTimeout := iot, connRetries := connRetries }

/-- A Go `error` value as tested by `os.IsNotExist`. -/
structure GoErr where
  isNotExist : Bool
  msg : String
deriving Repr, DecidableEq

/-- The `os.FileInfo` facts consulted by `ScanStream`. -/
structure FileInfo where
  isDir : Bool
  size : Int
deriving Repr, DecidableEq

/-- Observable outcome of `Client.ScanStream`: a returned error, a returned
response (with the accompanying scan error), or a runtime panic from a nil
`os.FileInfo` dereference. -/
inductive ScanStreamOutcome where
  | retErr (e : String)
  | retResp (r : Response) (err : Option ScanErr)
  | panicked
deriving Repr, DecidableEq

/-- `Client.ScanStream`: stat the path; return early only when the stat
error satisfies `os.IsNotExist`; then call `stat.IsDir()` — a nil-pointer
dereference when the stat failed with any other error (`stat = none`);
reject directories; open the file (`openErr` models `os.Open` failing) and
otherwise return the result of the streamed scan (`scanRes` models
`readerCmd`). -/
def ScanStream (stat : Option FileInfo) (statErr : Option GoErr)
    (openErr : Option String) (scanRes : Response × Option ScanErr) :
    ScanStreamOutcome :=
  if (match statErr with | some g => g.isNotExist | none => false) then
    .retErr (match statErr with | some g => g.msg | none => "")
  else
    match stat with
    | none => .panicked
    | some fi =>
      if fi.isDir then .retErr dirScanMsg
      else
        match openErr with
        | some e => .retErr e
        | none => .retResp scanRes.1 scanRes.2

/-! ## Result invariants (claim C3) -/

/-- The per-result invariant of claim C3: the infected and failed flags are
never both set, and a non-empty archive item occurs only on an infected
result and never equals the result's target. -/
def respInv (r : Response) : Prop :=
  ¬(r.Infected = true ∧ r.ErrorOccured = true) ∧
  (r.ArchiveItem ≠ "" → r.Infected = true ∧ r.ArchiveItem ≠ r.Filename)

/-- Strengthened invariant maintained by the single-target loop: the failed
flag is never set at all in single-target mode. -/
def srespInv (r : Response) : Prop :=
  r.ErrorOccured = false ∧
  (r.ArchiveItem ≠ "" → r.Infected = true ∧ r.ArchiveItem ≠ r.Filename)

/-- The invariant carried by the multi-target parser's mode: a response under
construction in the inner loop is infected, not failed, and has no target
yet. -/
def modeInv : MMode → Prop
  | .top => True
  | .nested rs => rs.ErrorOccured = false ∧ rs.Infected = true ∧ rs.Filename = ""

/-! ## String computation lemmas -/

theorem mk_data (s : String) : String.mk s.data = s := rfl

theorem data_virusLit : ("VIRUS " : String).data = ['V', 'I', 'R', 'U', 'S', ' '] := rfl

theorem data_okLit : ("OK 0 " : String).data = ['O', 'K', ' ', '0', ' '] := rfl

theorem data_spaceLit : (" " : String).data = [' '] := rfl

theorem ne_empty_of_data {s : String} {c : Char} {cs : List Char}
    (hs : s.data = c :: cs) : ¬(s = "") := by
  intro h
  rw [h] at hs
  exact absurd hs (by simp)

theorem goStartsWith_head_ne {s tok : String} {c d : Char} {cs ds : List Char}
    (hs : s.data = c :: cs) (ht : tok.data = d :: ds) (h : ¬(d = c)) :
    goStartsWith s tok = false := by
  show startsWithL tok.data s.data = false
  rw [hs, ht]
  simp [startsWithL, h]

theorem data_virus_line (sig mem : String) :
    ("VIRUS " ++ sig ++ " " ++ mem).data =
      'V' :: 'I' :: 'R' :: 'U' :: 'S' :: ' ' :: (sig.data ++ ' ' :: mem.data) := by
  simp [String.data_append, data_virusLit, data_spaceLit]

theorem data_ok_line (tgt : String) :
    ("OK 0 " ++ tgt).data = 'O' :: 'K' :: ' ' :: '0' :: ' ' :: tgt.data := by
  simp [String.data_append, data_okLit]

theorem OK_false_of_VIRUS {line : String} (h : goStartsWith line "VIRUS" = true) :
    goStartsWith line "OK" = false := by
  have hv : startsWithL ("VIRUS" : String).data line.data = true := h
  rcases hd : line.data with _ | ⟨c, cs⟩
  · rw [hd] at hv
    simp [startsWithL, show ("VIRUS" : String).data = ['V', 'I', 'R', 'U', 'S'] from rfl] at hv
  · rw [hd] at hv
    show startsWithL ("OK" : String).data line.data = false
    rw [hd]
    by_cases hc : 'V' = c
    · rw [← hc]
      simp [startsWithL, show ("OK" : String).data = ['O', 'K'] from rfl]
    · rw [show ("VIRUS" : String).data = ['V', 'I', 'R', 'U', 'S'] from rfl] at hv
      simp [startsWithL, hc] at hv

theorem virusSplit_append (mem : List Char) (h3 : ∀ c ∈ mem, isGoSpace c = false) :
    ∀ (sig acc : List Char), sig ≠ [] → (∀ c ∈ sig, isGoSpace c = false) →
      virusSplit acc (sig ++ ' ' :: mem) = some (acc.reverse ++ sig, mem) := by
  intro sig
  induction sig with
  | nil => intro acc h1 _; exact absurd rfl h1
  | cons c cs ih =>
    intro acc _ h2
    have hc : isGoSpace c = false := h2 c (List.mem_cons_self c cs)
    cases cs with
    | nil =>
      have hm : mem.any isGoSpace = false := by
        rw [List.any_eq_false]
        intro x hx
        simp [h3 x hx]
      simp [virusSplit, hc, hm, show isGoSpace ' ' = true from rfl]
    | cons d ds =>
      have hstep : virusSplit acc ((c :: d :: ds) ++ ' ' :: mem) =
          virusSplit (c :: acc) ((d :: ds) ++ ' ' :: mem) := by
        simp [virusSplit, hc]
      rw [hstep, ih (c :: acc) (by simp) (fun x hx => h2 x (List.mem_cons_of_mem c hx))]
      simp

theorem virusMatch_build (sig mem : String) (h1 : ¬(sig = ""))
    (h2 : ∀ c ∈ sig.data, isGoSpace c = false) (h3 : ∀ c ∈ mem.data, isGoSpace c = false) :
    virusMatch ("VIRUS " ++ sig ++ " " ++ mem) = some (sig, mem) := by
  have hsd : sig.data ≠ [] := fun h => h1 (String.ext h)
  have hs := virusSplit_append mem.data h3 sig.data [] hsd h2
  simp only [List.reverse_nil, List.nil_append] at hs
  unfold virusMatch
  rw [data_virus_line]
  simp [hs, mk_data, show isGoSpace ' ' = true from rfl]

theorem splitChSpace_nospace : ∀ (l : List Char), (∀ c ∈ l, ¬(c = ' ')) →
    splitChSpace l = [l] := by
  intro l
  induction l with
  | nil => intro _; rfl
  | cons c cs ih =>
    intro h
    have hc : ¬(c = ' ') := h c (List.mem_cons_self c cs)
    simp only [splitChSpace]
    rw [if_neg hc, ih (fun x hx => h x (List.mem_cons_of_mem c hx))]

theorem goSplitSpace_ok_line (tgt : String) (h : ∀ c ∈ tgt.data, ¬(c = ' ')) :
    goSplitSpace ("OK 0 " ++ tgt) = ["OK", "0", tgt] := by
  unfold goSplitSpace
  rw [data_ok_line]
  simp [splitChSpace, splitChSpace_nospace tgt.data h, mk_data,
    show String.mk ['O', 'K'] = "OK" from rfl, show String.mk ['0'] = "0" from rfl]

theorem processResponseGo_inv (e : String) :
    ∀ (lines : List String) (r : Response) (ierr : Option String),
      srespInv r → srespInv (processResponseGo e r ierr lines).1 := by
  intro lines
  induction lines with
  | nil =>
    intro r ierr h
    simpa [processResponseGo] using h
  | cons line rest ih =>
    intro r ierr h
    by_cases hacc : goStartsWith line "ACC" = true
    · simpa [processResponseGo, hacc] using ih r ierr h
    · by_cases hemp : line = ""
      · simpa [processResponseGo, hacc, hemp] using h
      · by_cases hsig : r.Signature ≠ ""
        · simpa [processResponseGo, hacc, hemp, hsig] using ih r _ h
        · rcases hv : virusMatch line with _ | ⟨sig, mem⟩
          · by_cases hvp : goStartsWith line "VIRUS" = true
            · simpa [processResponseGo, hacc, hemp, hsig, hv, hvp] using ih r _ h
            · simpa [processResponseGo, hacc, hemp, hsig, hv, hvp] using ih r _ h
          · have h2 : srespInv ({ (if r.Filename ≠ mem then { r with ArchiveItem := mem } else r) with
                Infected := true, Signature := sig, Raw := line } : Response) := by
              by_cases hf : r.Filename ≠ mem
              · rw [if_pos hf]
                exact ⟨h.1, fun _ => ⟨rfl, Ne.symm hf⟩⟩
              · rw [if_neg hf]
                exact ⟨h.1, fun ha => ⟨rfl, (h.2 ha).2⟩⟩
            simpa [processResponseGo, hacc, hemp, hsig, hv] using ih _ _ h2

theorem okFinish_inv (rs : Response) (ierr : Option String) (line : String)
    (h1 : rs.ErrorOccured = false) (h2 : rs.Infected = true) (h3 : rs.Filename = "") :
    respInv (okFinish rs ierr line).1 := by
  simp only [okFinish]
  by_cases hl : (goSplitSpace line).length ≠ 3
  · rw [if_pos hl]
    exact ⟨fun hcc => by simp [h1] at hcc, fun ha => ⟨h2, fun hh => ha (hh.trans h3)⟩⟩
  · rw [if_neg hl]
    by_cases hc : rs.ArchiveItem = (goSplitSpace line).getD 2 ""
    · rw [if_pos hc]
      exact ⟨fun hcc => by simp [h1] at hcc, fun ha => absurd rfl ha⟩
    · rw [if_neg hc]
      exact ⟨fun hcc => by simp [h1] at hcc, fun _ => ⟨h2, hc⟩⟩

/-- Any response whose infected flag is unset and whose archive item is
empty satisfies the result invariant. -/
theorem respInv_notInfected {r : Response} (h1 : r.Infected = false)
    (h2 : r.ArchiveItem = "") : respInv r :=
  ⟨fun hc => by simp [h1] at hc, fun ha => absurd h2 ha⟩

theorem processResponsesGo_inv (e : String) :
    ∀ (lines : List String) (acc : List Response) (ierr : Option String) (mode : MMode),
      (∀ r ∈ acc, respInv r) → modeInv mode →
      ∀ r ∈ (processResponsesGo e acc ierr mode lines).1, respInv r := by
  intro lines
  induction lines with
  | nil =>
    intro acc ierr mode hacc _ r hr
    simp only [processResponsesGo] at hr
    exact hacc r hr
  | cons line rest ih =>
    intro acc ierr mode hacc hmode r hr
    cases mode with
    | nested rs =>
      by_cases hv : goStartsWith line "VIRUS" = true
      · simp only [processResponsesGo, hv] at hr
        exact ih acc ierr _ hacc hmode r hr
      · by_cases hok : goStartsWith line "OK" = true
        · have hinv := okFinish_inv rs ierr line hmode.1 hmode.2.1 hmode.2.2
          simp only [processResponsesGo, hv, hok] at hr
          refine ih _ _ .top ?_ trivial r hr
          intro x hx
          rcases List.mem_append.mp hx with hx | hx
          · exact hacc x hx
          · rw [List.mem_singleton.mp hx]
            exact hinv
        · simp only [processResponsesGo, hv, hok] at hr
          exact ih acc ierr _ hacc hmode r hr
    | top =>
      by_cases hacc2 : goStartsWith line "ACC" = true
      · simp only [processResponsesGo, hacc2] at hr
        exact ih acc ierr .top hacc trivial r hr
      · by_cases hemp : line = ""
        · subst hemp
          simp only [processResponsesGo, hacc2] at hr
          simp at hr
          exact hacc r hr
        · by_cases hfail : goStartsWith line "FAIL" = true
          · simp only [processResponsesGo, hacc2, hemp, hfail] at hr
            refine ih _ _ .top ?_ trivial r hr
            intro x hx
            rcases List.mem_append.mp hx with hx | hx
            · exact hacc x hx
            · rw [List.mem_singleton.mp hx]
              by_cases hl : (goSplitSpace line).length ≠ 3
              · rw [if_pos hl]
                exact respInv_notInfected rfl rfl
              · rw [if_neg hl]
                exact respInv_notInfected rfl rfl
          · rcases hv : virusMatch line with _ | ⟨sig, mem⟩
            · by_cases hvp : goStartsWith line "VIRUS" = true
              · simp only [processResponsesGo, hacc2, hemp, hfail, hv, hvp] at hr
                exact ih acc _ .top hacc trivial r hr
              · simp only [processResponsesGo, hacc2, hemp, hfail, hv, hvp] at hr
                exact ih acc _ .top hacc trivial r hr
            · simp only [processResponsesGo, hacc2, hemp, hfail, hv] at hr
              exact ih acc _ (.nested _) hacc ⟨rfl, rfl, rfl⟩ r hr

/-- Claim C3: every result produced by either parsing mode satisfies the
invariant: the infected and failed flags are never both true, and a
non-empty archive member occurs only on an infected result and never equals
the result's target. -/
theorem claim_C3 :
    (∀ (p : String) (lines : List String) (e : String),
      respInv (processResponse p lines e).1) ∧
    (∀ (lines : List String) (e : String),
      ∀ r ∈ (processResponses lines e).1, respInv r) := by
  constructor
  · intro p lines e
    have h := processResponseGo_inv e lines { Filename := p } none
      ⟨rfl, fun ha => absurd rfl ha⟩
    refine ⟨fun hc => ?_, h.2⟩
    have h1 := h.1
    rw [show processResponse p lines e = processResponseGo e { Filename := p } none lines
      from rfl] at hc
    rw [h1] at hc
    exact Bool.false_ne_true hc.2
  · intro lines e r hr
    exact processResponsesGo_inv e lines [] none .top
      (fun x hx => absurd hx (List.not_mem_nil x)) trivial r hr

/-- Witness for claim C3 on a concrete multi-target exchange. -/
theorem claim_C3_witness :
    respInv
      { Filename := "/tmp/bad.eml", ErrorOccured := true, Raw := "FAIL 0210 /tmp/bad.eml" } :=
  claim_C3.2 ["FAIL 0210 /tmp/bad.eml", ""] "E"
    { Filename := "/tmp/bad.eml", ErrorOccured := true, Raw := "FAIL 0210 /tmp/bad.eml" }
    (by decide)

/-- Claim C4: an infection-report line `VIRUS <sig> <member>` processed in
single-target mode for requested target `T` yields `archive_member = <member>`
when the member differs from `T` and an empty archive member when it equals
`T`; in multi-target mode the member is likewise cleared exactly when it
equals the authoritative target of the following `OK` line. -/
theorem claim_C4 (T sig mem tgt e : String)
    (hsig : ¬(sig = "")) (hsig2 : ∀ c ∈ sig.data, isGoSpace c = false)
    (_hmem : ¬(mem = "")) (hmem2 : ∀ c ∈ mem.data, isGoSpace c = false)
    (htgt : ∀ c ∈ tgt.data, ¬(c = ' ')) :
    (processResponse T ["VIRUS " ++ sig ++ " " ++ mem, ""] e).1 =
      { Filename := T, ArchiveItem := if mem = T then "" else mem, Signature := sig,
        Infected := true, Raw := "VIRUS " ++ sig ++ " " ++ mem } ∧
    (processResponses ["VIRUS " ++ sig ++ " " ++ mem, "OK 0 " ++ tgt, ""] e).1 =
      [{ Filename := tgt, ArchiveItem := if mem = tgt then "" else mem, Signature := sig,
         Infected := true, Raw := "VIRUS " ++ sig ++ " " ++ mem }] := by
  have hmatch := virusMatch_build sig mem hsig hsig2 hmem2
  have hd := data_virus_line sig mem
  have hA : goStartsWith ("VIRUS " ++ sig ++ " " ++ mem) "ACC" = false :=
    goStartsWith_head_ne hd (show ("ACC" : String).data = 'A' :: ['C', 'C'] from rfl)
      (by decide)
  have hD : goStartsWith ("VIRUS " ++ sig ++ " " ++ mem) "DONE" = false :=
    goStartsWith_head_ne hd
      (show ("DONE" : String).data = 'D' :: ['O', 'N', 'E'] from rfl) (by decide)
  have hF : goStartsWith ("VIRUS " ++ sig ++ " " ++ mem) "FAIL" = false :=
    goStartsWith_head_ne hd
      (show ("FAIL" : String).data = 'F' :: ['A', 'I', 'L'] from rfl) (by decide)
  have hne : ¬("VIRUS " ++ sig ++ " " ++ mem = "") := ne_empty_of_data hd
  have hEA : goStartsWith "" "ACC" = false := by decide
  have hED : goStartsWith "" "DONE" = false := by decide
  have hEDF : goStartsWith "" "DONE FAIL" = false := by decide
  constructor
  · simp only [processResponse, processResponseGo, hA, hD, hmatch, hEA, hED,
      Option.map_none']
    rw [if_neg hne]
    by_cases hTm : mem = T
    · simp [hTm, hEA, hED, hEDF]
    · have hTm2 : ¬(T = mem) := fun hh => hTm hh.symm
      simp [hTm, hTm2, hEA, hED, hEDF]
  · have hdo := data_ok_line tgt
    have hV2 : goStartsWith ("OK 0 " ++ tgt) "VIRUS" = false :=
      goStartsWith_head_ne hdo
        (show ("VIRUS" : String).data = 'V' :: ['I', 'R', 'U', 'S'] from rfl) (by decide)
    have hOK : goStartsWith ("OK 0 " ++ tgt) "OK" = true := by
      show startsWithL ("OK" : String).data ("OK 0 " ++ tgt).data = true
      rw [hdo, show ("OK" : String).data = ['O', 'K'] from rfl]
      simp [startsWithL]
    have hsplit := goSplitSpace_ok_line tgt htgt
    have hget : (["OK", "0", tgt] : List String).getD 2 "" = tgt := rfl
    simp only [processResponses, processResponsesGo, hA, hD, hF, hmatch, hV2, hOK,
      okFinish, hsplit, hget, hEA, hED, Option.map_none']
    rw [if_neg hne]
    by_cases hmt : mem = tgt
    · simp [hmt, hEA, hED, hEDF]
    · have hmt2 : ¬(tgt = mem) := fun hh => hmt hh.symm
      simp [hmt, hmt2, hEA, hED, hEDF]

/-- Witness for claim C4 on the spec's own scenario lines. -/
theorem claim_C4_witness :
    (processResponse "/tmp/a.txt" ["VIRUS EICAR-AV-Test /tmp/a.txt", ""] "E").1 =
      { Filename := "/tmp/a.txt", ArchiveItem := "", Signature := "EICAR-AV-Test",
        Infected := true, Raw := "VIRUS EICAR-AV-Test /tmp/a.txt" } ∧
    (processResponses
        ["VIRUS EICAR-AV-Test /tmp/a.tar.bz2/Bzip2/a.txt", "OK 0 /tmp/a.tar.bz2", ""] "E").1 =
      [{ Filename := "/tmp/a.tar.bz2", ArchiveItem := "/tmp/a.tar.bz2/Bzip2/a.txt",
         Signature := "EICAR-AV-Test", Infected := true,
         Raw := "VIRUS EICAR-AV-Test /tmp/a.tar.bz2/Bzip2/a.txt" }] := by
  constructor
  · have h := (claim_C4 "/tmp/a.txt" "EICAR-AV-Test" "/tmp/a.txt" "x" "E"
      (by decide) (by decide) (by decide) (by decide) (by decide)).1
    simpa using h
  · have h := (claim_C4 "zzz" "EICAR-AV-Test" "/tmp/a.tar.bz2/Bzip2/a.txt" "/tmp/a.tar.bz2" "E"
      (by decide) (by decide) (by decide) (by decide) (by decide)).2
    simpa using h

/-! ## Multi-target event correspondence (claim C1) -/

theorem okFinish_kind (rs : Response) (ierr : Option String) (line : String) :
    (okFinish rs ierr line).1.ErrorOccured = rs.ErrorOccured ∧
    (okFinish rs ierr line).1.Raw = rs.Raw := by
  simp only [okFinish]
  by_cases hl : (goSplitSpace line).length ≠ 3
  · rw [if_pos hl]; exact ⟨rfl, rfl⟩
  · rw [if_neg hl]
    by_cases hc : rs.ArchiveItem = (goSplitSpace line).getD 2 ""
    · rw [if_pos hc]; exact ⟨rfl, rfl⟩
    · rw [if_neg hc]; exact ⟨rfl, rfl⟩

theorem virusMatch_none_of_not_VIRUS {line : String}
    (h : goStartsWith line "VIRUS" = false) : virusMatch line = none := by
  unfold virusMatch
  split
  · next c rest heq =>
    exfalso
    have hv : startsWithL ("VIRUS" : String).data line.data = false := h
    rw [heq, show ("VIRUS" : String).data = ['V', 'I', 'R', 'U', 'S'] from rfl] at hv
    simp [startsWithL] at hv
  · rfl

theorem head_of_goStartsWith {line tok : String} {d : Char} {ds : List Char}
    (ht : tok.data = d :: ds) (h : goStartsWith line tok = true) :
    ∃ cs, line.data = d :: cs := by
  have h2 : startsWithL tok.data line.data = true := h
  rw [ht] at h2
  rcases hd : line.data with _ | ⟨c, cs⟩
  · rw [hd] at h2
    simp [startsWithL] at h2
  · rw [hd] at h2
    simp only [startsWithL] at h2
    by_cases hc : d = c
    · subst hc
      exact ⟨cs, rfl⟩
    · rw [if_neg hc] at h2
      simp at h2

theorem processResponsesGo_events (e : String) :
    ∀ (lines : List String) (acc : List Response) (ierr : Option String),
      ((processResponsesGo e acc ierr .top lines).1.map
          (fun r => (r.ErrorOccured, r.Raw)) =
        acc.map (fun r => (r.ErrorOccured, r.Raw)) ++ topEventsGo none lines) ∧
      (∀ rs : Response, rs.ErrorOccured = false →
        (processResponsesGo e acc ierr (.nested rs) lines).1.map
            (fun r => (r.ErrorOccured, r.Raw)) =
          acc.map (fun r => (r.ErrorOccured, r.Raw)) ++ topEventsGo (some rs.Raw) lines) := by
  intro lines
  induction lines with
  | nil =>
    intro acc ierr
    constructor
    · simp [processResponsesGo, topEventsGo]
    · intro rs _
      simp [processResponsesGo, topEventsGo]
  | cons line rest ih =>
    intro acc ierr
    have ihtop : ∀ (a : List Response) (i : Option String),
        (processResponsesGo e a i .top rest).1.map (fun r => (r.ErrorOccured, r.Raw)) =
          a.map (fun r => (r.ErrorOccured, r.Raw)) ++ topEventsGo none rest :=
      fun a i => (ih a i).1
    have ihnest : ∀ (a : List Response) (i : Option String) (rs : Response),
        rs.ErrorOccured = false →
        (processResponsesGo e a i (.nested rs) rest).1.map (fun r => (r.ErrorOccured, r.Raw)) =
          a.map (fun r => (r.ErrorOccured, r.Raw)) ++ topEventsGo (some rs.Raw) rest :=
      fun a i rs h => (ih a i).2 rs h
    constructor
    · by_cases hacc2 : goStartsWith line "ACC" = true
      · simp [processResponsesGo, topEventsGo, hacc2, ihtop]
      · by_cases hemp : line = ""
        · subst hemp
          have hEA : goStartsWith "" "ACC" = false := by decide
          simp [processResponsesGo, topEventsGo, hEA]
        · by_cases hfail : goStartsWith line "FAIL" = true
          · by_cases hl : (goSplitSpace line).length ≠ 3
            · simp [processResponsesGo, topEventsGo, hacc2, hemp, hfail, hl, ihtop]
            · simp [processResponsesGo, topEventsGo, hacc2, hemp, hfail, hl, ihtop]
          · rcases hv : virusMatch line with _ | ⟨sig, mem⟩
            · by_cases hvp : goStartsWith line "VIRUS" = true
              · simp [processResponsesGo, topEventsGo, hacc2, hemp, hfail, hv, hvp, ihtop]
              · simp [processResponsesGo, topEventsGo, hacc2, hemp, hfail, hv, hvp, ihtop]
            · simp [processResponsesGo, topEventsGo, hacc2, hemp, hfail, hv, ihnest]
    · intro rs hrs
      by_cases hvp : goStartsWith line "VIRUS" = true
      · have hok := OK_false_of_VIRUS hvp
        simp [processResponsesGo, topEventsGo, hvp, hok, ihnest, hrs]
      · by_cases hok : goStartsWith line "OK" = true
        · have hk := okFinish_kind rs ierr line
          simp [processResponsesGo, topEventsGo, hvp, hok, ihtop, hk.1, hk.2, hrs]
        · simp [processResponsesGo, topEventsGo, hvp, hok, ihnest, hrs]

theorem topEventsGo_nil : ∀ (lines : List String),
    (∀ l ∈ lines, goStartsWith l "FAIL" = false ∧ goStartsWith l "VIRUS" = false) →
    topEventsGo none lines = [] := by
  intro lines
  induction lines with
  | nil => intro _; rfl
  | cons line rest ih =>
    intro h
    have h1 := h line (List.mem_cons_self _ _)
    have hrest := fun l hl => h l (List.mem_cons_of_mem _ hl)
    by_cases hacc2 : goStartsWith line "ACC" = true
    · simp only [topEventsGo, hacc2, if_pos]
      exact ih hrest
    · by_cases hemp : line = ""
      · subst hemp
        have hEA : goStartsWith "" "ACC" = false := by decide
        simp [topEventsGo, hEA]
      · simp only [topEventsGo, hacc2, hemp, h1.1,
          virusMatch_none_of_not_VIRUS h1.2]
        simp only [Bool.false_eq_true, if_false, Option.isSome_none]
        exact ih hrest

/-- Claim C1: a multi-target exchange yields exactly one result per
top-level `FAIL` line or completed `VIRUS..OK` sequence, in arrival order
(witnessed by the failed-flag/raw-line projection agreeing with the event
list of the line stream); in particular a stream with no `FAIL` or `VIRUS`
lines yields an empty result list. -/
theorem claim_C1 (lines : List String) (e : String) :
    (processResponses lines e).1.map (fun r => (r.ErrorOccured, r.Raw)) =
      topEvents lines ∧
    ((∀ l ∈ lines, goStartsWith l "FAIL" = false ∧ goStartsWith l "VIRUS" = false) →
      (processResponses lines e).1 = []) := by
  have h := (processResponsesGo_events e lines [] none).1
  constructor
  · simpa [processResponses, topEvents] using h
  · intro hno
    have h2 : (processResponses lines e).1.map (fun r => (r.ErrorOccured, r.Raw)) = [] := by
      rw [show (processResponses lines e).1 = (processResponsesGo e [] none .top lines).1
        from rfl, h]
      simp [topEventsGo_nil lines hno]
    exact List.map_eq_nil_iff.mp h2

/-- Witness for claim C1: the spec's directory-scan scenario produces one
failure event and one infection event in order, and a clean exchange
produces no results. -/
theorem claim_C1_witness :
    (processResponses ["ACC SCANDIR", "FAIL 0210 /tmp/bad.eml",
        "VIRUS EICAR-AV-Test /tmp/a.tar.bz2/Bzip2/a.txt", "OK 0 /tmp/a.tar.bz2",
        "DONE OK", ""] "E").1.map (fun r => (r.ErrorOccured, r.Raw)) =
      [(true, "FAIL 0210 /tmp/bad.eml"),
        (false, "VIRUS EICAR-AV-Test /tmp/a.tar.bz2/Bzip2/a.txt")] ∧
    (processResponses ["ACC SCANDIR", "DONE OK", ""] "E").1 = [] := by
  constructor
  · have h := (claim_C1 ["ACC SCANDIR", "FAIL 0210 /tmp/bad.eml",
        "VIRUS EICAR-AV-Test /tmp/a.tar.bz2/Bzip2/a.txt", "OK 0 /tmp/a.tar.bz2",
        "DONE OK", ""] "E").1
    rw [h]
    decide
  · exact (claim_C1 ["ACC SCANDIR", "DONE OK", ""] "E").2 (by decide)

/-! ## Read-error precedence (claim C5) -/

theorem ne_readErr_of_isReadErr_false {x : Option ScanErr} (h : isReadErr x = false) :
    ∀ e2, x ≠ some (.readErr e2) := by
  intro e2 hx
  rw [hx] at h
  simp [isReadErr] at h

theorem processResponseGo_noSentinel (e : String) :
    ∀ (lines : List String) (r : Response) (ierr : Option String),
      ¬(("" : String) ∈ lines) →
      (processResponseGo e r ierr lines).2 = some (.readErr e) := by
  intro lines
  induction lines with
  | nil => intro r ierr _; rfl
  | cons line rest ih =>
    intro r ierr h
    have hne : ¬(line = "") := fun hh => h (List.mem_cons.mpr (Or.inl hh.symm))
    have hrest : ¬(("" : String) ∈ rest) := fun hh => h (List.mem_cons_of_mem _ hh)
    have ih2 : ∀ (r2 : Response) (i : Option String),
        (processResponseGo e r2 i rest).2 = some (.readErr e) := fun r2 i => ih r2 i hrest
    by_cases hacc : goStartsWith line "ACC" = true
    · simp [processResponseGo, hacc, ih2]
    · by_cases hsig : r.Signature ≠ ""
      · simp [processResponseGo, hacc, hne, hsig, ih2]
      · rcases hv : virusMatch line with _ | ⟨sig, mem⟩
        · by_cases hvp : goStartsWith line "VIRUS" = true
          · simp [processResponseGo, hacc, hne, hsig, hv, hvp, ih2]
          · simp [processResponseGo, hacc, hne, hsig, hv, hvp, ih2]
        · simp [processResponseGo, hacc, hne, hsig, hv, ih2]

theorem processResponseGo_sentinel (e : String) :
    ∀ (lines : List String) (r : Response) (ierr : Option String),
      ("" : String) ∈ lines →
      ∀ e2, (processResponseGo e r ierr lines).2 ≠ some (.readErr e2) := by
  intro lines
  induction lines with
  | nil => intro r ierr h; exact absurd h (List.not_mem_nil _)
  | cons line rest ih =>
    intro r ierr h e2
    by_cases hemp : line = ""
    · subst hemp
      have hEA : goStartsWith "" "ACC" = false := by decide
      have hED : goStartsWith "" "DONE" = false := by decide
      cases ierr <;> simp [processResponseGo, hEA, hED]
    · have hrest : ("" : String) ∈ rest := by
        rcases List.mem_cons.mp h with h1 | h1
        · exact absurd h1.symm hemp
        · exact h1
      have ih2 : ∀ (r2 : Response) (i : Option String),
          (processResponseGo e r2 i rest).2 ≠ some (.readErr e2) :=
        fun r2 i => ih r2 i hrest e2
      by_cases hacc : goStartsWith line "ACC" = true
      · simp [processResponseGo, hacc, ih2]
      · by_cases hsig : r.Signature ≠ ""
        · simp [processResponseGo, hacc, hemp, hsig, ih2]
        · rcases hv : virusMatch line with _ | ⟨sig, mem⟩
          · by_cases hvp : goStartsWith line "VIRUS" = true
            · simp [processResponseGo, hacc, hemp, hsig, hv, hvp, ih2]
            · simp [processResponseGo, hacc, hemp, hsig, hv, hvp, ih2]
          · simp [processResponseGo, hacc, hemp, hsig, hv, ih2]

theorem processResponsesGo_term (e : String) :
    ∀ (lines : List String) (acc : List Response) (ierr : Option String),
      ((multiTermGo false lines = false →
          (processResponsesGo e acc ierr .top lines).2 = some (.readErr e)) ∧
        (multiTermGo false lines = true →
          isReadErr (processResponsesGo e acc ierr .top lines).2 = false)) ∧
      (∀ rs : Response,
        (multiTermGo true lines = false →
          (processResponsesGo e acc ierr (.nested rs) lines).2 = some (.readErr e)) ∧
        (multiTermGo true lines = true →
          isReadErr (processResponsesGo e acc ierr (.nested rs) lines).2 = false)) := by
  intro lines
  induction lines with
  | nil =>
    intro acc ierr
    exact ⟨⟨fun _ => rfl, fun h => by simp [multiTermGo] at h⟩,
      fun rs => ⟨fun _ => rfl, fun h => by simp [multiTermGo] at h⟩⟩
  | cons line rest ih =>
    intro acc ierr
    have ihTF : ∀ (a : List Response) (i : Option String), multiTermGo false rest = false →
        (processResponsesGo e a i .top rest).2 = some (.readErr e) :=
      fun a i => ((ih a i).1).1
    have ihTT : ∀ (a : List Response) (i : Option String), multiTermGo false rest = true →
        isReadErr (processResponsesGo e a i .top rest).2 = false :=
      fun a i => ((ih a i).1).2
    have ihNF : ∀ (a : List Response) (i : Option String) (rs : Response),
        multiTermGo true rest = false →
        (processResponsesGo e a i (.nested rs) rest).2 = some (.readErr e) :=
      fun a i rs => ((ih a i).2 rs).1
    have ihNT : ∀ (a : List Response) (i : Option String) (rs : Response),
        multiTermGo true rest = true →
        isReadErr (processResponsesGo e a i (.nested rs) rest).2 = false :=
      fun a i rs => ((ih a i).2 rs).2
    have hEA : goStartsWith "" "ACC" = false := by decide
    have hED : goStartsWith "" "DONE" = false := by decide
    constructor
    · by_cases hacc2 : goStartsWith line "ACC" = true
      · constructor
        · intro hterm
          rw [show multiTermGo false (line :: rest) = multiTermGo false rest from by
            simp [multiTermGo, hacc2]] at hterm
          simp [processResponsesGo, hacc2, ihTF _ _ hterm]
        · intro hterm
          rw [show multiTermGo false (line :: rest) = multiTermGo false rest from by
            simp [multiTermGo, hacc2]] at hterm
          simp [processResponsesGo, hacc2, ihTT _ _ hterm]
      · by_cases hemp : line = ""
        · subst hemp
          have htt : multiTermGo false ("" :: rest) = true := by simp [multiTermGo, hEA]
          constructor
          · intro hterm
            rw [htt] at hterm
            exact absurd hterm (by simp)
          · intro _
            cases ierr <;> simp [processResponsesGo, hEA, hED, isReadErr]
        · by_cases hfail : goStartsWith line "FAIL" = true
          · have hmt : multiTermGo false (line :: rest) = multiTermGo false rest := by
              simp [multiTermGo, hacc2, hemp, hfail]
            constructor
            · intro hterm
              rw [hmt] at hterm
              by_cases hl : (goSplitSpace line).length ≠ 3
              · simp [processResponsesGo, hacc2, hemp, hfail, hl, ihTF _ _ hterm]
              · simp [processResponsesGo, hacc2, hemp, hfail, hl, ihTF _ _ hterm]
            · intro hterm
              rw [hmt] at hterm
              by_cases hl : (goSplitSpace line).length ≠ 3
              · simp [processResponsesGo, hacc2, hemp, hfail, hl, ihTT _ _ hterm]
              · simp [processResponsesGo, hacc2, hemp, hfail, hl, ihTT _ _ hterm]
          · rcases hv : virusMatch line with _ | ⟨sig, mem⟩
            · have hmt : multiTermGo false (line :: rest) = multiTermGo false rest := by
                simp [multiTermGo, hacc2, hemp, hfail, hv]
              constructor
              · intro hterm
                rw [hmt] at hterm
                by_cases hvp : goStartsWith line "VIRUS" = true
                · simp [processResponsesGo, hacc2, hemp, hfail, hv, hvp, ihTF _ _ hterm]
                · simp [processResponsesGo, hacc2, hemp, hfail, hv, hvp, ihTF _ _ hterm]
              · intro hterm
                rw [hmt] at hterm
                by_cases hvp : goStartsWith line "VIRUS" = true
                · simp [processResponsesGo, hacc2, hemp, hfail, hv, hvp, ihTT _ _ hterm]
                · simp [processResponsesGo, hacc2, hemp, hfail, hv, hvp, ihTT _ _ hterm]
            · have hmt : multiTermGo false (line :: rest) = multiTermGo true rest := by
                simp [multiTermGo, hacc2, hemp, hfail, hv]
              constructor
              · intro hterm
                rw [hmt] at hterm
                simp [processResponsesGo, hacc2, hemp, hfail, hv, ihNF _ _ _ hterm]
              · intro hterm
                rw [hmt] at hterm
                simp [processResponsesGo, hacc2, hemp, hfail, hv, ihNT _ _ _ hterm]
    · intro rs
      by_cases hvp : goStartsWith line "VIRUS" = true
      · have hok := OK_false_of_VIRUS hvp
        have hmt : multiTermGo true (line :: rest) = multiTermGo true rest := by
          simp [multiTermGo, hok]
        constructor
        · intro hterm
          rw [hmt] at hterm
          simp [processResponsesGo, hvp, ihNF _ _ _ hterm]
        · intro hterm
          rw [hmt] at hterm
          simp [processResponsesGo, hvp, ihNT _ _ _ hterm]
      · by_cases hok : goStartsWith line "OK" = true
        · have hmt : multiTermGo true (line :: rest) = multiTermGo false rest := by
            simp [multiTermGo, hok]
          constructor
          · intro hterm
            rw [hmt] at hterm
            simp [processResponsesGo, hvp, hok, ihTF _ _ hterm]
          · intro hterm
            rw [hmt] at hterm
            simp [processResponsesGo, hvp, hok, ihTT _ _ hterm]
        · have hmt : multiTermGo true (line :: rest) = multiTermGo true rest := by
            simp [multiTermGo, hok]
          constructor
          · intro hterm
            rw [hmt] at hterm
            simp [processResponsesGo, hvp, hok, ihNF _ _ _ hterm]
          · intro hterm
            rw [hmt] at hterm
            simp [processResponsesGo, hvp, hok, ihNT _ _ _ hterm]

/-- Claim C5: in either parsing mode a lower-level read error always takes
precedence: when the exchange never reaches its terminating condition the
returned error is exactly the read error, regardless of any pending
protocol-content error captured earlier; and when the exchange terminates
normally the returned error is never a read error (it is the pending
protocol-content error, if any, alongside the parsed result). -/
theorem claim_C5 (p : String) (lines : List String) (e : String) :
    (¬(("" : String) ∈ lines) → (processResponse p lines e).2 = some (.readErr e)) ∧
    (("" : String) ∈ lines →
      ∀ e2, (processResponse p lines e).2 ≠ some (.readErr e2)) ∧
    (multiTerm lines = false → (processResponses lines e).2 = some (.readErr e)) ∧
    (multiTerm lines = true →
      ∀ e2, (processResponses lines e).2 ≠ some (.readErr e2)) := by
  refine ⟨?_, ?_, ?_, ?_⟩
  · intro h
    exact processResponseGo_noSentinel e lines { Filename := p } none h
  · intro h e2
    exact processResponseGo_sentinel e lines { Filename := p } none h e2
  · intro h
    exact ((processResponsesGo_term e lines [] none).1).1 h
  · intro h
    exact ne_readErr_of_isReadErr_false (((processResponsesGo_term e lines [] none).1).2 h)

/-- Witness for claim C5: an exchange holding a `DONE FAIL` line but no
sentinel returns the read error, not the pending terminal-failure error;
with the sentinel present the pending error is returned instead. -/
theorem claim_C5_witness :
    (processResponse "p" ["DONE FAIL oops"] "E").2 = some (.readErr "E") ∧
    (processResponses ["DONE FAIL oops"] "E").2 = some (.readErr "E") ∧
    (processResponse "p" ["DONE FAIL oops", ""] "E").2 ≠ some (.readErr "E") := by
  refine ⟨(claim_C5 "p" ["DONE FAIL oops"] "E").1 (by decide),
    (claim_C5 "p" ["DONE FAIL oops"] "E").2.2.1 (by decide),
    (claim_C5 "p" ["DONE FAIL oops", ""] "E").2.1 (by decide) "E"⟩

/-! ## Malformed per-item failure lines (claim C6) -/

theorem okFinish_snd_ne (rs : Response) {ierr : Option String} (h : ierr ≠ none)
    (line : String) : (okFinish rs ierr line).2 ≠ none := by
  simp only [okFinish]
  by_cases hl : (goSplitSpace line).length ≠ 3
  · rw [if_pos hl]
    simp
  · rw [if_neg hl]
    by_cases hc : rs.ArchiveItem = (goSplitSpace line).getD 2 ""
    · rw [if_pos hc]
      exact h
    · rw [if_neg hc]
      exact h

theorem processResponsesGo_ierr_ne (e : String) :
    ∀ (lines : List String) (acc : List Response) (ierr : Option String) (mode : MMode),
      ierr ≠ none → (processResponsesGo e acc ierr mode lines).2 ≠ none := by
  intro lines
  induction lines with
  | nil =>
    intro acc ierr mode _
    simp [processResponsesGo]
  | cons line rest ih =>
    intro acc ierr mode hne
    have hierr1 : (if goStartsWith line "DONE" = true then
        if goStartsWith line "DONE FAIL" = true then some (doneFailMsg line) else ierr
      else ierr) ≠ none := by
      split
      · split
        · simp
        · exact hne
      · exact hne
    cases mode with
    | nested rs =>
      by_cases hvp : goStartsWith line "VIRUS" = true
      · simp only [processResponsesGo, hvp]
        exact ih acc ierr (.nested rs) hne
      · by_cases hok : goStartsWith line "OK" = true
        · simp only [processResponsesGo, hvp, hok]
          exact ih _ _ .top (okFinish_snd_ne rs hne line)
        · simp only [processResponsesGo, hvp, hok]
          exact ih acc ierr (.nested rs) hne
    | top =>
      by_cases hacc2 : goStartsWith line "ACC" = true
      · simp only [processResponsesGo, hacc2]
        exact ih acc ierr .top hne
      · by_cases hemp : line = ""
        · subst hemp
          have hEA : goStartsWith "" "ACC" = false := by decide
          have hED : goStartsWith "" "DONE" = false := by decide
          rcases h0 : ierr with _ | m
          · exact absurd h0 hne
          · simp [processResponsesGo, hEA, hED, h0]
        · by_cases hfail : goStartsWith line "FAIL" = true
          · simp only [processResponsesGo, hacc2, hemp, hfail]
            refine ih _ _ .top ?_
            by_cases hl : (goSplitSpace line).length ≠ 3
            · rw [if_pos hl]
              simp
            · rw [if_neg hl]
              exact hierr1
          · rcases hv : virusMatch line with _ | ⟨sig, mem⟩
            · by_cases hvp : goStartsWith line "VIRUS" = true
              · simp only [processResponsesGo, hacc2, hemp, hfail, hv, hvp]
                exact ih _ _ .top (by simp)
              · simp only [processResponsesGo, hacc2, hemp, hfail, hv, hvp]
                exact ih _ _ .top hierr1
            · simp only [processResponsesGo, hacc2, hemp, hfail, hv]
              exact ih _ _ (.nested _) hierr1

theorem processResponsesGo_acc_prefix (e : String) :
    ∀ (lines : List String) (acc : List Response) (ierr : Option String) (mode : MMode),
      ∃ tail, (processResponsesGo e acc ierr mode lines).1 = acc ++ tail := by
  intro lines
  induction lines with
  | nil =>
    intro acc ierr mode
    exact ⟨[], by simp [processResponsesGo]⟩
  | cons line rest ih =>
    intro acc ierr mode
    cases mode with
    | nested rs =>
      by_cases hvp : goStartsWith line "VIRUS" = true
      · obtain ⟨t, ht⟩ := ih acc ierr (.nested rs)
        refine ⟨t, ?_⟩
        simp only [processResponsesGo]
        rw [if_pos hvp]
        exact ht
      · by_cases hok : goStartsWith line "OK" = true
        · obtain ⟨t, ht⟩ := ih (acc ++ [(okFinish rs ierr line).1])
            (if goStartsWith line "VIRUS" = true then some (virusMatchMsg line)
              else (okFinish rs ierr line).2) .top
          refine ⟨[(okFinish rs ierr line).1] ++ t, ?_⟩
          simp only [processResponsesGo]
          rw [if_neg hvp, if_pos hok]
          exact ht.trans (List.append_assoc _ _ _)
        · obtain ⟨t, ht⟩ := ih acc ierr (.nested rs)
          refine ⟨t, ?_⟩
          simp only [processResponsesGo]
          rw [if_neg hvp, if_neg hok]
          exact ht
    | top =>
      by_cases hacc2 : goStartsWith line "ACC" = true
      · obtain ⟨t, ht⟩ := ih acc ierr .top
        refine ⟨t, ?_⟩
        simp only [processResponsesGo]
        rw [if_pos hacc2]
        exact ht
      · by_cases hemp : line = ""
        · subst hemp
          have hEA : goStartsWith "" "ACC" = false := by decide
          refine ⟨[], ?_⟩
          simp [processResponsesGo, hEA]
        · by_cases hfail : goStartsWith line "FAIL" = true
          · set pr1 : Response × Option String :=
              (if (goSplitSpace line).length ≠ 3 then
                ({ ErrorOccured := true, Raw := line }, some (invalidRespMsg line))
              else
                ({ ErrorOccured := true, Raw := line,
                    Filename := (goSplitSpace line).getD 2 "" },
                  if goStartsWith line "DONE" = true then
                    if goStartsWith line "DONE FAIL" = true then some (doneFailMsg line)
                    else ierr
                  else ierr)) with hpr1
            obtain ⟨t, ht⟩ := ih (acc ++ [pr1.1]) pr1.2 .top
            refine ⟨[pr1.1] ++ t, ?_⟩
            simp only [processResponsesGo]
            rw [if_neg hacc2, if_neg hemp, if_pos hfail]
            exact ht.trans (List.append_assoc _ _ _)
          · rcases hv : virusMatch line with _ | ⟨sig, mem⟩
            · by_cases hvp : goStartsWith line "VIRUS" = true
              · obtain ⟨t, ht⟩ := ih acc (some (virusMatchMsg line)) .top
                refine ⟨t, ?_⟩
                simp only [processResponsesGo]
                rw [if_neg hacc2, if_neg hemp, if_neg hfail, hv, if_pos hvp]
                exact ht
              · obtain ⟨t, ht⟩ := ih acc
                  (if goStartsWith line "DONE" = true then
                    if goStartsWith line "DONE FAIL" = true then some (doneFailMsg line)
                    else ierr
                  else ierr) .top
                refine ⟨t, ?_⟩
                simp only [processResponsesGo]
                rw [if_neg hacc2, if_neg hemp, if_neg hfail, hv, if_neg hvp]
                exact ht
            · obtain ⟨t, ht⟩ := ih acc
                (if goStartsWith line "DONE" = true then
                  if goStartsWith line "DONE FAIL" = true then some (doneFailMsg line)
                  else ierr
                else ierr)
                (.nested { Infected := true, Signature := sig, Raw := line, ArchiveItem := mem })
              refine ⟨t, ?_⟩
              simp only [processResponsesGo]
              rw [if_neg hacc2, if_neg hemp, if_neg hfail, hv]
              exact ht

theorem processResponsesGo_top_append (e : String) :
    ∀ (pre : List String), (∀ l ∈ pre, ¬(l = "") ∧ virusMatch l = none) →
      ∀ (acc : List Response) (ierr : Option String) (rest2 : List String),
        ∃ (acc2 : List Response) (ierr2 : Option String),
          processResponsesGo e acc ierr .top (pre ++ rest2) =
            processResponsesGo e (acc ++ acc2) ierr2 .top rest2 := by
  intro pre
  induction pre with
  | nil =>
    intro _ acc ierr rest2
    exact ⟨[], ierr, by simp⟩
  | cons line pr ih =>
    intro h acc ierr rest2
    have h1 := h line (List.mem_cons_self _ _)
    have hpr : ∀ l ∈ pr, ¬(l = "") ∧ virusMatch l = none :=
      fun l hl => h l (List.mem_cons_of_mem _ hl)
    by_cases hacc2 : goStartsWith line "ACC" = true
    · obtain ⟨a2, i2, hh⟩ := ih hpr acc ierr rest2
      refine ⟨a2, i2, ?_⟩
      rw [show (line :: pr) ++ rest2 = line :: (pr ++ rest2) from rfl]
      simp only [processResponsesGo]
      rw [if_pos hacc2]
      exact hh
    · by_cases hfail : goStartsWith line "FAIL" = true
      · set pr1 : Response × Option String :=
          (if (goSplitSpace line).length ≠ 3 then
            ({ ErrorOccured := true, Raw := line }, some (invalidRespMsg line))
          else
            ({ ErrorOccured := true, Raw := line,
                Filename := (goSplitSpace line).getD 2 "" },
              if goStartsWith line "DONE" = true then
                if goStartsWith line "DONE FAIL" = true then some (doneFailMsg line)
                else ierr
              else ierr)) with hpr1
        obtain ⟨a2, i2, hh⟩ := ih hpr (acc ++ [pr1.1]) pr1.2 rest2
        rw [List.append_assoc] at hh
        refine ⟨[pr1.1] ++ a2, i2, ?_⟩
        rw [show (line :: pr) ++ rest2 = line :: (pr ++ rest2) from rfl]
        simp only [processResponsesGo]
        rw [if_neg hacc2, if_neg h1.1, if_pos hfail]
        exact hh
      · by_cases hvp : goStartsWith line "VIRUS" = true
        · obtain ⟨a2, i2, hh⟩ := ih hpr acc (some (virusMatchMsg line)) rest2
          refine ⟨a2, i2, ?_⟩
          rw [show (line :: pr) ++ rest2 = line :: (pr ++ rest2) from rfl]
          simp only [processResponsesGo]
          rw [if_neg hacc2, if_neg h1.1, if_neg hfail, h1.2, if_pos hvp]
          exact hh
        · obtain ⟨a2, i2, hh⟩ := ih hpr acc
            (if goStartsWith line "DONE" = true then
              if goStartsWith line "DONE FAIL" = true then some (doneFailMsg line)
              else ierr
            else ierr) rest2
          refine ⟨a2, i2, ?_⟩
          rw [show (line :: pr) ++ rest2 = line :: (pr ++ rest2) from rfl]
          simp only [processResponsesGo]
          rw [if_neg hacc2, if_neg h1.1, if_neg hfail, h1.2, if_neg hvp]
          exact hh

/-- Claim C6 counterexample: the exchange `FAIL x`, `DONE FAIL oops`, `""`
contains a malformed per-item failure line and does append a failed result
with an empty target, but the returned error carries the message `oops`
from the later terminal-failure line, which is not the
invalid-server-response error for any line. -/
theorem claim_C6_cex :
    (processResponses ["FAIL x", "DONE FAIL oops", ""] "E").1 =
      [{ ErrorOccured := true, Raw := "FAIL x" }] ∧
    (processResponses ["FAIL x", "DONE FAIL oops", ""] "E").2 =
      some (.pending "oops") ∧
    (∀ l : String, ¬(("oops" : String) = invalidRespMsg l)) := by
  refine ⟨by decide, by decide, ?_⟩
  intro l h
  have h2 := congrArg (fun s : String => s.data.length) h
  simp only [invalidRespMsg, String.data_append, List.length_append] at h2
  have h3 : ("oops" : String).data.length = 4 := rfl
  have h4 : ("Invalid server response: " : String).data.length = 25 := rfl
  rw [h3, h4] at h2
  omega

/-- Claim C6 (amended): whenever the multi-target parser reaches, at top
level, a per-item failure line that does not split into exactly 3
space-separated tokens, a failed result with an empty target and the line
as its raw text is appended to the returned list, and the operation
returns a non-nil error — the invalid-server-response error unless a later
line or a read failure replaces it. -/
theorem claim_C6 (pre post : List String) (line : String) (e : String)
    (hpre : ∀ l ∈ pre, ¬(l = "") ∧ virusMatch l = none)
    (hfail : goStartsWith line "FAIL" = true)
    (hlen : (goSplitSpace line).length ≠ 3) :
    ({ ErrorOccured := true, Raw := line } : Response) ∈
        (processResponses (pre ++ line :: post) e).1 ∧
    (processResponses (pre ++ line :: post) e).2 ≠ none := by
  obtain ⟨cs, hline⟩ := head_of_goStartsWith
    (show ("FAIL" : String).data = 'F' :: ['A', 'I', 'L'] from rfl) hfail
  have hACCf : goStartsWith line "ACC" = false :=
    goStartsWith_head_ne hline (show ("ACC" : String).data = 'A' :: ['C', 'C'] from rfl)
      (by decide)
  have hempf : ¬(line = "") := ne_empty_of_data hline
  obtain ⟨acc2, ierr2, hstep⟩ := processResponsesGo_top_append e pre hpre [] none (line :: post)
  have hdef : processResponses (pre ++ line :: post) e =
      processResponsesGo e [] none .top (pre ++ line :: post) := rfl
  have hACCf2 : ¬(goStartsWith line "ACC" = true) := by simp [hACCf]
  have hstep2 : processResponsesGo e ([] ++ acc2) ierr2 .top (line :: post) =
      processResponsesGo e (([] ++ acc2) ++ [{ ErrorOccured := true, Raw := line }])
        (some (invalidRespMsg line)) .top post := by
    simp only [processResponsesGo]
    rw [if_neg hACCf2, if_neg hempf, if_pos hfail, if_pos hlen]
  constructor
  · obtain ⟨tail, htail⟩ := processResponsesGo_acc_prefix e post
      (([] ++ acc2) ++ [{ ErrorOccured := true, Raw := line }])
      (some (invalidRespMsg line)) .top
    rw [hdef, hstep, hstep2, htail]
    exact List.mem_append.mpr (Or.inl (List.mem_append.mpr
      (Or.inr (List.mem_singleton.mpr rfl))))
  · rw [hdef, hstep, hstep2]
    exact processResponsesGo_ierr_ne e post _ _ .top (by simp)

/-- Witness for claim C6 (amended) on a concrete exchange with a malformed
`FAIL` line. -/
theorem claim_C6_witness :
    ({ ErrorOccured := true, Raw := "FAIL x" } : Response) ∈
        (processResponses (["ACC SCANDIR"] ++ "FAIL x" :: ["DONE OK", ""]) "E").1 ∧
    (processResponses (["ACC SCANDIR"] ++ "FAIL x" :: ["DONE OK", ""]) "E").2 ≠ none :=
  claim_C6 ["ACC SCANDIR"] ["DONE OK", ""] "FAIL x" "E" (by decide) (by decide) (by decide)

/-! ## Dial loop lemmas -/

theorem dialFrom_congr (att att2 : Nat → DialOutcome) :
    ∀ (k i : Nat), (∀ j, i ≤ j → j < i + k → att j = att2 j) →
      dialFrom att i k = dialFrom att2 i k := by
  intro k
  induction k with
  | zero => intro i _; rfl
  | succ k ih =>
    intro i h
    have h0 : att i = att2 i := h i (le_refl i) (by omega)
    cases hatt : att i with
    | timeoutErr =>
      simp only [dialFrom, ← h0, hatt]
      by_cases hk : k = 0
      · simp [hk]
      · rw [if_neg hk, if_neg hk]
        exact ih (i + 1) (fun j h1 h2 => h j (by omega) (by omega))
    | success => simp only [dialFrom, ← h0, hatt]
    | otherErr e2 => simp only [dialFrom, ← h0, hatt]

theorem dialFrom_first (att : Nat → DialOutcome) :
    ∀ (k i j : Nat), i ≤ j → j < i + k →
      (∀ m, i ≤ m → m < j → att m = .timeoutErr) → att j ≠ .timeoutErr →
      dialFrom att i k = some (att j) := by
  intro k
  induction k with
  | zero => intro i j h1 h2 _ _; omega
  | succ k ih =>
    intro i j h1 h2 hpre hj
    by_cases hij : i = j
    · subst hij
      cases hatt : att i with
      | timeoutErr => exact absurd hatt hj
      | success => simp [dialFrom, hatt]
      | otherErr e2 => simp [dialFrom, hatt]
    · have hii : i < j := by omega
      have hti : att i = .timeoutErr := hpre i (le_refl i) hii
      have hk : k ≠ 0 := by omega
      simp only [dialFrom, hti]
      rw [if_neg hk]
      exact ih (i + 1) j (by omega) (by omega) (fun m hm1 hm2 => hpre m (by omega) hm2) hj

theorem dialFrom_allTimeout (att : Nat → DialOutcome) :
    ∀ (k i : Nat), 0 < k → (∀ j, i ≤ j → j < i + k → att j = .timeoutErr) →
      dialFrom att i k = some .timeoutErr := by
  intro k
  induction k with
  | zero => intro i h _; omega
  | succ k ih =>
    intro i _ h
    have hti : att i = .timeoutErr := h i (le_refl i) (by omega)
    simp only [dialFrom, hti]
    by_cases hk : k = 0
    · simp [hk]
    · rw [if_neg hk]
      exact ih (i + 1) (by omega) (fun j h1 h2 => h j (by omega) (by omega))

/-! ## Claim theorems: configuration, dialing, validation, stream scanning -/

/-- Claim C2 (code bug evidence): the terminal-failure message is produced by
`strings.TrimLeft` with `"DONE FAIL"` as a character *cutset*, not a prefix.
On the spec's own example the message round-trips, but for the diagnostic
text `INFECTED` — whose leading characters `I`, `N`, `F`, `E` all belong to
the cutset — the returned message is `"CTED"`, not `"INFECTED"`, refuting
literal round-tripping for every possible message. -/
theorem claim_C2_bug :
    (processResponse "p" ["DONE FAIL 0500 internal error", ""] "E").2 =
      some (.pending "0500 internal error") ∧
    (processResponse "p" ["DONE FAIL INFECTED", ""] "E").2 =
      some (.pending "CTED") ∧
    "CTED" ≠ "INFECTED" ∧
    doneFailMsg "DONE FAIL INFECTED" = "CTED" := by decide

/-- Claim C7: the per-command-timeout and inter-retry-sleep setters ignore
any non-positive duration, retaining the previously configured value, and a
positive duration updates exactly the targeted field. -/
theorem claim_C7 (c : ClientCfg) (t : Int) :
    (t ≤ 0 → SetCmdTimeout c t = c ∧ SetConnSleep c t = c) ∧
    (0 < t →
      (SetCmdTimeout c t).cmdTimeout = t ∧
      (SetCmdTimeout c t).connSleep = c.connSleep ∧
      (SetConnSleep c t).connSleep = t ∧
      (SetConnSleep c t).cmdTimeout = c.cmdTimeout) := by
  constructor
  · intro h
    have : ¬(0 < t) := by omega
    simp [SetCmdTimeout, SetConnSleep, this]
  · intro h
    simp [SetCmdTimeout, SetConnSleep, h]

/-- Witness for claim C7 at concrete inputs. -/
theorem claim_C7_witness :
    SetCmdTimeout { } (-3) = { } ∧ (SetCmdTimeout { } 5).cmdTimeout = 5 :=
  ⟨((claim_C7 { } (-3)).1 (by decide)).1, ((claim_C7 { } 5).2 (by decide)).1⟩

/-- Claim C8: the dial loop makes at most `retries + 1` attempts (the result
depends only on the first `retries + 1` attempt outcomes); when every
earlier attempt timed out and attempt `j` does not, the loop stops there and
returns attempt `j`'s outcome (first success, or first non-timeout failure);
and when all allowed attempts time out the returned outcome is the last
timeout failure. -/
theorem claim_C8 (connRetries : Int) (att : Nat → DialOutcome) :
    (∀ att2 : Nat → DialOutcome,
        (∀ i, i < (connRetries + 1).toNat → att i = att2 i) →
        dial connRetries att = dial connRetries att2) ∧
    (∀ j, j < (connRetries + 1).toNat →
        (∀ i, i < j → att i = DialOutcome.timeoutErr) →
        att j ≠ DialOutcome.timeoutErr →
        dial connRetries att = some (att j)) ∧
    ((∀ i, i < (connRetries + 1).toNat → att i = DialOutcome.timeoutErr) →
        0 < (connRetries + 1).toNat →
        dial connRetries att = some DialOutcome.timeoutErr) := by
  refine ⟨?_, ?_, ?_⟩
  · intro att2 h
    exact dialFrom_congr att att2 _ 0 (fun j _ h2 => h j (by omega))
  · intro j hj hpre hne
    exact dialFrom_first att _ 0 j (Nat.zero_le j) (by omega)
      (fun m _ hm => hpre m hm) hne
  · intro h hpos
    exact dialFrom_allTimeout att _ 0 hpos (fun j _ hj => h j (by omega))

/-- Witness for claim C8: with 2 retries, a timeout on the first attempt
followed by a success on the second yields the first success. -/
theorem claim_C8_witness :
    dial 2 (fun i => if i = 0 then DialOutcome.timeoutErr else DialOutcome.success) =
      some DialOutcome.success := by
  have h := (claim_C8 2
      (fun i => if i = 0 then DialOutcome.timeoutErr else DialOutcome.success)).2.1
      1 (by decide)
      (fun i hi => by
        have h0 : i = 0 := by omega
        simp [h0])
      (by decide)
  simpa using h

/-- Claim C9: `NewClient` validates before any dial: a transport kind
outside the supported set returns the unsupported-protocol error, and for
Unix-domain kinds a socket path reported non-existent by `os.Stat` returns
the socket-not-found error with a result independent of the dial outcome
(no network connection is ever attempted). -/
theorem claim_C9 (network address : String) (st : String → Bool)
    (ct iot r : Int) (d d' : Option String) :
    (¬(network = "" ∧ address = "") →
      network ≠ "unix" → network ≠ "unixpacket" → network ≠ "tcp" →
      network ≠ "tcp4" → network ≠ "tcp6" →
      NewClient network address st ct iot r d = .errUnsupported network) ∧
    ((network = "unix" ∨ network = "unixpacket") → st address = true →
      NewClient network address st ct iot r d = .errSockNotFound address ∧
      NewClient network address st ct iot r d = NewClient network address st ct iot r d') := by
  constructor
  · intro h0 h1 h2 h3 h4 h5
    simp [NewClient, h0, h1, h2, h3, h4, h5]
  · intro hn hst
    rcases hn with h | h <;> subst h <;> simp +decide [NewClient, hst]

/-- Witness for claim C9 at concrete inputs. -/
theorem claim_C9_witness :
    NewClient "udp" "h:1" (fun _ => false) 0 0 0 none =
      NewClientResult.errUnsupported "udp" ∧
    NewClient "unix" "/no/such.sock" (fun _ => true) 0 0 0 none =
      NewClientResult.errSockNotFound "/no/such.sock" :=
  ⟨(claim_C9 "udp" "h:1" (fun _ => false) 0 0 0 none none).1
      (by decide) (by decide) (by decide) (by decide) (by decide) (by decide),
    ((claim_C9 "unix" "/no/such.sock" (fun _ => true) 0 0 0 none none).2
      (Or.inl rfl) rfl).1⟩

/-- Claim C10 (code bug evidence): when `os.Stat` fails with an error that
is not non-existence (e.g. a permission error), `ScanStream` reaches
`stat.IsDir()` with a nil `os.FileInfo` and panics instead of returning the
error: the directory-check branch is reached without a successful stat. -/
theorem claim_C10_bug :
    ScanStream none (some { isNotExist := false, msg := "stat /p: permission denied" })
        none ({ }, none) = ScanStreamOutcome.panicked ∧
    (∀ msg : String,
      ScanStream none (some { isNotExist := false, msg := msg }) none ({ }, none) =
        ScanStreamOutcome.panicked) := by
  constructor
  · rfl
  · intro msg; rfl

end SSSP
